import Mathlib

set_option maxRecDepth 8000

/-!
Verification of the mon-receiver serial→influx pipeline (src/receiver/receiver.py).

Shallow embedding: byte strings are `List Nat` (each element a byte value),
Python exceptions are an explicit error type threaded through results, and the
stateful classes become explicit state-passing functions.  Machine integers are
`Nat`; the CRC-32 computation keeps all intermediate values below 2^32 by
construction (right shifts and xors of 32-bit values).
-/

namespace Receiver

/-- Python exceptions that can arise on the modelled paths.  `valueError` covers
both the tuple-unpack failure in `_parse_data` and the `ValueError` re-raise in
`_unpack_data` (struct.error); `unicodeDecodeError` is raised by
`name.decode("ASCII")`; `cobsDecodeError` by `cobs.decode`; `queueFull` by
`Queue.put_nowait`; `other` stands for any further exception a collaborator may
raise. -/
inductive PyErr where
  | valueError
  | unicodeDecodeError
  | cobsDecodeError
  | queueFull
  | other (code : Nat)
deriving DecidableEq, Repr

/-! ## CRC-32 (`binascii.crc32`)

Standard zlib CRC-32: initial value 0xFFFFFFFF, reflected polynomial
0xEDB88320, final xor 0xFFFFFFFF. -/

def crcPoly : Nat := 0xEDB88320

/-- One bit-step of the reflected CRC-32: shift right, conditionally xor the
polynomial. -/
def crcStep (c : Nat) : Nat :=
  if c % 2 = 1 then (c / 2) ^^^ crcPoly else c / 2

/-- Fold one input byte into the running CRC (xor in, then 8 bit-steps). -/
def crcByte (c b : Nat) : Nat := crcStep^[8] (c ^^^ b)

/-- `binascii.crc32 data` (with default initial value 0). -/
def crc32 (data : List Nat) : Nat :=
  (data.foldl crcByte 0xFFFFFFFF) ^^^ 0xFFFFFFFF

/-! ## COBS decoding (`cobs.decode`)

Mirrors the reference pure-python implementation shipped with the `cobs`
package: walk the input by length-prefixed blocks, rejecting zero bytes inside
the input and truncated final blocks, inserting a zero between blocks except
after a 0xFF-length block.  The loop consumes at least one input byte per
iteration, so fuel `input.length + 1` is always sufficient; `rem` is the suffix
of the input starting at the Python index `idx`. -/

def cobsLoop : Nat → List Nat → List Nat → Except PyErr (List Nat)
  | 0, _, _ => .error .cobsDecodeError
  | fuel + 1, rem, out =>
    match rem with
    | [] => .error .cobsDecodeError
    | length :: tail =>
      if length = 0 then .error .cobsDecodeError
      else
        let copy := tail.take (length - 1)
        if 0 ∈ copy then .error .cobsDecodeError
        else if tail.length < length - 1 then .error .cobsDecodeError
        else
          let rem2 := tail.drop (length - 1)
          let out2 := out ++ copy
          if rem2 = [] then .ok out2
          else cobsLoop fuel rem2 (if length < 255 then out2 ++ [0] else out2)

/-- `cobs.decode`: an empty input decodes to empty output; otherwise run the
block loop. -/
def cobsDecode (inBytes : List Nat) : Except PyErr (List Nat) :=
  if inBytes = [] then .ok [] else cobsLoop (inBytes.length + 1) inBytes []

/-! ## ProtocolParser (`struct.unpack("<6sfI", ...)`, ASCII decode, crc check) -/

/-- The parsed-packet dictionary produced by `ProtocolParser._unpack_data`.
The float value is kept as its 4 raw little-endian bytes: the program never
computes with the float, it only forwards it, so the bit pattern is the
faithful representation. -/
structure Packet where
  name : String
  valueBytes : List Nat
  crc : Nat
deriving DecidableEq, Repr

/-- Little-endian unsigned 32-bit integer from 4 bytes (struct format `I`). -/
def leUint32 (bs : List Nat) : Nat :=
  match bs with
  | [b0, b1, b2, b3] => b0 + 256 * b1 + 65536 * b2 + 16777216 * b3
  | _ => 0

/-- `bytes.decode("ASCII")` applied to bytes already checked to be < 128. -/
def asciiOfBytes (bs : List Nat) : String :=
  String.mk (bs.map Char.ofNat)

/-- `ProtocolParser._unpack_data`: `struct.unpack("<6sfI", data)` requires
exactly 14 bytes (else `struct.error`, re-raised as `ValueError`); then
`name.decode("ASCII")` requires all 6 name bytes < 128 (else
`UnicodeDecodeError`, re-raised unchanged). -/
def unpackData (data : List Nat) : Except PyErr Packet :=
  if data.length = 14 then
    if (data.take 6).all (· < 128) then
      .ok ⟨asciiOfBytes (data.take 6), (data.drop 6).take 4, leUint32 (data.drop 10)⟩
    else .error .unicodeDecodeError
  else .error .valueError

/-- `ProtocolParser._check_crc`: compare the transmitted checksum with CRC-32
over the first 10 unstuffed bytes. -/
def checkCrc (packedData : List Nat) (parsedData : Packet) : Bool :=
  parsedData.crc == crc32 (packedData.take 10)

/-- State of a `ProtocolParser` with a registered listener modelled by the
`listener` flag; `notified` logs the packets passed to the listener's
`add_packet` (`ProtocolParser._notify` invokes it whenever a listener is set,
swallowing any exception the listener itself raises). -/
structure ParserState where
  buffer : List Nat
  notified : List Packet
  listener : Bool
deriving DecidableEq, Repr

/-- Python `bytes.split(b"\x00")`: split on every delimiter occurrence,
keeping empty segments; the result always has one more part than the input has
delimiters. -/
def splitOnZero : List Nat → List (List Nat)
  | [] => [[]]
  | b :: rest =>
    if b = 0 then [] :: splitOnZero rest
    else
      match splitOnZero rest with
      | p :: ps => (b :: p) :: ps
      | [] => [[b]]

/-- `ProtocolParser._notify`: forward the packet to the registered listener if
one is set (exceptions from the listener are caught and logged). -/
def notifyPacket (st : ParserState) (p : Packet) : ParserState :=
  if st.listener then ⟨st.buffer, st.notified ++ [p], st.listener⟩ else st

/-- The body of `_parse_data` after the split succeeded: buffer is reassigned
to the remainder, then cobs decode / struct unpack / crc check each drop the
frame silently on failure. -/
def processFrame (st : ParserState) (packet rest : List Nat) : ParserState :=
  match cobsDecode packet with
  | .error _ => ⟨rest, st.notified, st.listener⟩
  | .ok data =>
    match unpackData data with
    | .error _ => ⟨rest, st.notified, st.listener⟩
    | .ok parsedData =>
      if checkCrc data parsedData then
        notifyPacket ⟨rest, st.notified, st.listener⟩ parsedData
      else ⟨rest, st.notified, st.listener⟩

/-- `ProtocolParser._parse_data`.  Returns the post-call object state together
with the exception propagated to the caller, if any.  The line
`packet, self.buffer = self.buffer.split(b"\x00")` unpacks the full split list
into exactly two targets, so it raises `ValueError` (before any assignment,
leaving the buffer unchanged) whenever the buffer holds two or more
delimiters.  (The `if not parsed_data` guard in the source never fires: the
parsed dictionary is always non-empty.) -/
def parseData (st : ParserState) : ParserState × Option PyErr :=
  if 0 ∈ st.buffer then
    match splitOnZero st.buffer with
    | [packet, rest] => (processFrame st packet rest, none)
    | _ => (st, some .valueError)
  else (st, none)

/-- `ProtocolParser.add_data`: append the chunk to the buffer, and run one
parse pass when a delimiter is present. -/
def addData (st : ParserState) (rawData : List Nat) : ParserState × Option PyErr :=
  let st1 : ParserState := ⟨st.buffer ++ rawData, st.notified, st.listener⟩
  if 0 ∈ st1.buffer then parseData st1 else (st1, none)

/-! ## SerialReader -/

/-- Environment of one probe attempt in `SerialReader._try_device`: whether the
`Serial(...)` constructor succeeds, what `port.read(4)` yields (bytes actually
read — fewer than 4 on timeout — or an exception), and whether `port.close()`
succeeds. -/
structure ProbeEnv where
  openOk : Bool
  readResult : Except PyErr (List Nat)
  closeOk : Bool
deriving Repr

/-- Outcome of `SerialReader._try_device`: the returned boolean, and whether a
close was attempted on an actually-opened handle (when the constructor itself
raised there is no handle; the source's `port.close()` then hits an unbound
name and is swallowed by the bare `except`). -/
structure ProbeOutcome where
  success : Bool
  closeAttempted : Bool
deriving DecidableEq, Repr

/-- `SerialReader._try_device`: open, read 4 bytes, close; any open/read
exception leads to a best-effort close and `False`; a close exception after a
successful read also returns `False`; otherwise report whether exactly 4 bytes
were read.  The function keeps no state across calls, so a failed probe has no
effect on later passes. -/
def tryDevice (env : ProbeEnv) : ProbeOutcome :=
  if env.openOk then
    match env.readResult with
    | .error _ => ⟨false, true⟩
    | .ok data =>
      if env.closeOk then ⟨decide (data.length = 4), true⟩
      else ⟨false, true⟩
  else ⟨false, false⟩

/-- `SerialReader._notify`: if a listener is registered, invoke its `add_data`
inside a try/except that logs and swallows any exception; the argument is the
result the listener's `add_data` would produce. -/
def serialNotify (listenerSet : Bool) (result : Except PyErr Unit) : Except PyErr Unit :=
  if listenerSet then
    match result with
    | .ok _ => .ok ()
    | .error _ => .ok ()
  else .ok ()

/-- One iteration of the `while True` loop in
`SerialReader._read_from_serialport`: a read failure clears the port and
leaves the loop (`.ok false`); otherwise the data is handed to `_notify` and
the loop continues (`.ok true`).  An exception escaping `_notify` would
propagate to the caller (`.error`). -/
def readIteration (readRes : Except PyErr (List Nat)) (listenerSet : Bool)
    (listener : List Nat → Except PyErr Unit) : Except PyErr Bool :=
  match readRes with
  | .error _ => .ok false
  | .ok data =>
    match serialNotify listenerSet (listener data) with
    | .ok _ => .ok true
    | .error e => .error e

/-! ## InfluxWriter -/

/-- The dictionary `InfluxWriter.add_packet` enqueues: measurement name, the
formatted current UTC timestamp, and the value field. -/
structure Measurement where
  measurement : String
  time : String
  value : List Nat
deriving DecidableEq, Repr

/-- Conversion Packet → Measurement performed inside `add_packet`; `now` is the
formatted `datetime.utcnow()` string. -/
def mkMeasurement (now : String) (p : Packet) : Measurement :=
  ⟨p.name, now, p.valueBytes⟩

/-- Capacity of the `Queue(100)` created in `InfluxWriter.__init__`. -/
def queueCapacity : Nat := 100

/-- `Queue.put_nowait`: succeed immediately when below capacity, raise
`queue.Full` otherwise; never blocks. -/
def putNowait (q : List Measurement) (m : Measurement) : Except PyErr (List Measurement) :=
  if q.length < queueCapacity then .ok (q ++ [m]) else .error .queueFull

/-- `InfluxWriter.add_packet`: non-blocking enqueue of the converted
measurement; the surrounding try/except catches the full-queue exception,
logs a warning (the reported `Bool`), and drops the measurement. -/
def addPacket (now : String) (q : List Measurement) (p : Packet) :
    List Measurement × Bool :=
  match putNowait q (mkMeasurement now p) with
  | .ok q2 => (q2, false)
  | .error _ => (q, true)

/-- State of the `_write` loop: the local `points` batch, the successful bulk
writes issued so far, and how many times the over-500 safety valve fired. -/
structure WriterState (α : Type) where
  pending : List α
  writes : List (List α)
  overflows : Nat
deriving DecidableEq, Repr

/-- One iteration of `InfluxWriter._write` for one item pulled from the queue.
`writeOk` tells whether `client.write_points` succeeds this run: the item is
appended; at length ≥ 100 a successful write clears the batch while a failed
write only logs a warning and keeps it; then a batch exceeding 500 items is
discarded and the overflow logged.  (The source runs the over-500 check after
the write attempt in all cases; after a successful write the batch is empty
so that check trivially passes, hence the two sequential `if`s collapse to
this `if`/`else if`.) -/
def writeStep {α : Type} (writeOk : Bool) (st : WriterState α) (item : α) :
    WriterState α :=
  if (st.pending ++ [item]).length ≥ 100 ∧ writeOk = true then
    ⟨[], st.writes ++ [st.pending ++ [item]], st.overflows⟩
  else if (st.pending ++ [item]).length > 500 then
    ⟨[], st.writes, st.overflows + 1⟩
  else ⟨st.pending ++ [item], st.writes, st.overflows⟩

/-- Run the `_write` loop from an empty batch over a finite arrival sequence,
with a store whose writes uniformly succeed (`writeOk = true`) or fail. -/
def runWriter {α : Type} (writeOk : Bool) (items : List α) : WriterState α :=
  items.foldl (writeStep writeOk) ⟨[], [], 0⟩

/-! ## Concrete wire data used as witnesses

`goodRecord1/2` are well-formed 14-byte records (ASCII name, value bytes, and
matching little-endian CRC-32 of the first 10 bytes); `goodFrame1/2` are their
COBS encodings (no zero bytes, so a single 15-length block).  `paddedRecord`
has a null-padded name, `badAsciiRecord` a non-ASCII name byte. -/

def goodRecord1 : List Nat := [97, 98, 99, 49, 50, 51, 1, 2, 3, 4, 133, 231, 1, 199]

def goodFrame1 : List Nat := 15 :: goodRecord1

def goodRecord2 : List Nat := [100, 101, 102, 52, 53, 54, 5, 6, 7, 8, 167, 105, 197, 111]

def goodFrame2 : List Nat := 15 :: goodRecord2

def paddedRecord : List Nat := [97, 98, 99, 0, 0, 0, 1, 2, 3, 4, 147, 45, 38, 102]

def paddedFrame : List Nat := [4, 97, 98, 99, 1, 1, 9, 1, 2, 3, 4, 147, 45, 38, 102]

def badAsciiRecord : List Nat := [200, 98, 99, 49, 50, 51, 1, 2, 3, 4, 5, 5, 5, 5]

def badAsciiFrame : List Nat := 15 :: badAsciiRecord

/-- A fresh decoder state with a registered listener. -/
def initState : ParserState := ⟨[], [], true⟩

/-! ## Helper lemmas -/

theorem splitOnZero_ne_nil (l : List Nat) : splitOnZero l ≠ [] := by
  induction l with
  | nil => simp [splitOnZero]
  | cons b rest ih =>
    by_cases hb : b = 0
    · simp [splitOnZero, hb]
    · simp only [splitOnZero, if_neg hb]
      cases h : splitOnZero rest <;> simp

theorem zero_not_mem_of_mem_splitOnZero (l : List Nat) :
    ∀ p ∈ splitOnZero l, 0 ∉ p := by
  induction l with
  | nil =>
    intro p hp
    simp only [splitOnZero, List.mem_singleton] at hp
    simp [hp]
  | cons b rest ih =>
    intro p hp
    by_cases hb : b = 0
    · rw [hb] at hp
      simp only [splitOnZero, if_pos rfl] at hp
      rcases List.mem_cons.mp hp with rfl | hp2
      · simp
      · exact ih p hp2
    · simp only [splitOnZero, if_neg hb] at hp
      rcases h : splitOnZero rest with _ | ⟨q, qs⟩
      · exact absurd h (splitOnZero_ne_nil rest)
      · rw [h] at hp
        rcases List.mem_cons.mp hp with rfl | hp2
        · intro hmem
          rcases List.mem_cons.mp hmem with h0 | h0
          · exact hb h0.symm
          · exact ih q (h ▸ List.mem_cons_self q qs) h0
        · exact ih p (h ▸ List.mem_cons_of_mem q hp2)

theorem splitOnZero_append_zero (l : List Nat) (h : 0 ∉ l) :
    splitOnZero (l ++ [0]) = [l, []] := by
  induction l with
  | nil => rfl
  | cons b rest ih =>
    have hb : b ≠ 0 := by
      intro hb0
      exact h (hb0 ▸ List.mem_cons_self b rest)
    have hr : 0 ∉ rest := fun hm => h (List.mem_cons_of_mem b hm)
    simp only [List.cons_append, splitOnZero, if_neg hb, List.append_eq, ih hr]

theorem processFrame_buffer (st : ParserState) (packet rest : List Nat) :
    (processFrame st packet rest).buffer = rest := by
  cases hd : cobsDecode packet with
  | error e => simp [processFrame, hd]
  | ok data =>
    cases hu : unpackData data with
    | error e => simp [processFrame, hd, hu]
    | ok p =>
      by_cases hc : checkCrc data p = true
      · simp only [processFrame, hd, hu, hc, if_true, notifyPacket]
        split <;> rfl
      · simp [processFrame, hd, hu, hc]

theorem parseData_eq (frame : List Nat) (st : ParserState) (hf : 0 ∉ frame)
    (hb : st.buffer = frame ++ [0]) :
    parseData st = (processFrame st frame [], none) := by
  have h0 : 0 ∈ st.buffer := by
    rw [hb]
    exact List.mem_append_right _ (List.mem_singleton.mpr rfl)
  have hsp : splitOnZero st.buffer = [frame, []] := by
    rw [hb]
    exact splitOnZero_append_zero frame hf
  unfold parseData
  rw [if_pos h0, hsp]

theorem unpackData_ok_elim (d : List Nat) (p : Packet) (h : unpackData d = .ok p) :
    d.length = 14 ∧ (d.take 6).all (· < 128) = true ∧
      p = ⟨asciiOfBytes (d.take 6), (d.drop 6).take 4, leUint32 (d.drop 10)⟩ := by
  unfold unpackData at h
  split at h
  · split at h
    · refine ⟨by assumption, by assumption, ?_⟩
      injection h with h2
      exact h2.symm
    · exact absurd h (by simp)
  · exact absurd h (by simp)

theorem serialNotify_ok (ls : Bool) (r : Except PyErr Unit) :
    serialNotify ls r = .ok () := by
  cases ls <;> cases r <;> rfl

/-! ## Claim theorems -/

/-- C1: feeding one chunk holding two complete, valid, delimiter-terminated
frames to an empty decoder does NOT invoke the listener twice: the
two-target unpack of `self.buffer.split(b"\x00")` sees three parts and raises
`ValueError`, so `add_data` raises and the listener is invoked zero times.
The same two frames are individually valid: fed one per call they produce one
notification each, in arrival order. -/
theorem addData_two_frames_in_one_chunk :
    addData initState (goodFrame1 ++ [0] ++ goodFrame2 ++ [0]) =
      (⟨goodFrame1 ++ [0] ++ goodFrame2 ++ [0], [], true⟩, some PyErr.valueError) ∧
    (addData initState (goodFrame1 ++ [0])).1.notified.length = 1 ∧
    (addData initState (goodFrame2 ++ [0])).1.notified.length = 1 ∧
    (addData (addData initState (goodFrame1 ++ [0])).1 (goodFrame2 ++ [0])).1.notified =
      [⟨asciiOfBytes (goodRecord1.take 6), (goodRecord1.drop 6).take 4,
          leUint32 (goodRecord1.drop 10)⟩,
       ⟨asciiOfBytes (goodRecord2.take 6), (goodRecord2.drop 6).take 4,
          leUint32 (goodRecord2.drop 10)⟩] := by
  refine ⟨by decide, by decide, by decide, by decide⟩

/-- C2: `add_data` returns normally on the empty chunk, a chunk with no
delimiter, and the single delimiter byte, but it is NOT exception-free on
arbitrary input: a chunk carrying two delimiters makes
`self.buffer.split(b"\x00")` return three parts, and the two-target unpack
raises `ValueError` to the caller. -/
theorem addData_raises_on_two_delimiters :
    (addData initState []).2 = none ∧
    (addData initState [5, 6]).2 = none ∧
    (addData initState [0]).2 = none ∧
    (addData initState [0, 0]).2 = some PyErr.valueError := by
  refine ⟨rfl, by decide, by decide, by decide⟩

/-- Helper for C9: a parse pass that returns without raising leaves a
delimiter-free buffer. -/
theorem parseData_ok_buffer_no_delimiter (st : ParserState)
    (h : (parseData st).2 = none) : 0 ∉ (parseData st).1.buffer := by
  unfold parseData at h ⊢
  by_cases hm : 0 ∈ st.buffer
  · rw [if_pos hm] at h ⊢
    rcases hs : splitOnZero st.buffer with _ | ⟨a, _ | ⟨b, _ | ⟨c, l⟩⟩⟩
    · exact absurd hs (splitOnZero_ne_nil _)
    · rw [hs] at h; simp at h
    · simp only [processFrame_buffer]
      exact zero_not_mem_of_mem_splitOnZero _ b
        (hs ▸ List.mem_cons_of_mem a (List.mem_cons_self b _))
    · rw [hs] at h; simp at h
  · rw [if_neg hm] at h ⊢
    exact hm

/-- C9: whenever `add_data` returns without raising, the remaining buffer holds
no delimiter byte (this holds from any prior state, hence in particular from
the initial empty buffer): either no delimiter was present and no parse pass
ran, or exactly one was present and the split consumed it; with two or more
delimiters the call raises instead of returning. -/
theorem addData_ok_buffer_no_delimiter (st : ParserState) (chunk : List Nat)
    (h : (addData st chunk).2 = none) : 0 ∉ (addData st chunk).1.buffer := by
  unfold addData at h ⊢
  by_cases hm : 0 ∈ (⟨st.buffer ++ chunk, st.notified, st.listener⟩ : ParserState).buffer
  · rw [if_pos hm] at h ⊢
    exact parseData_ok_buffer_no_delimiter _ h
  · rw [if_neg hm] at h ⊢
    exact hm

/-- Witness for C9 at a concrete input: one valid delimiter-terminated chunk
leaves an empty, delimiter-free buffer. -/
theorem addData_ok_buffer_no_delimiter_witness :
    0 ∉ (addData initState [7, 0]).1.buffer :=
  addData_ok_buffer_no_delimiter initState [7, 0] (by decide)

/-- C5: `add_packet` never raises (the full-queue exception is caught): below
capacity 100 the converted measurement is appended to the queue, and on a full
queue the measurement is dropped, the failure is reported, and the queue is
unchanged. -/
theorem addPacket_nonblocking (now : String) (q : List Measurement) (p : Packet) :
    (q.length < queueCapacity →
      addPacket now q p = (q ++ [mkMeasurement now p], false)) ∧
    (queueCapacity ≤ q.length → addPacket now q p = (q, true)) := by
  constructor
  · intro h
    unfold addPacket putNowait
    rw [if_pos h]
  · intro h
    unfold addPacket putNowait
    rw [if_neg (by omega)]

/-- Witness for C5: a queue at capacity 100 drops the measurement and stays
unchanged; an empty queue accepts it. -/
theorem addPacket_nonblocking_witness :
    addPacket "t" (List.replicate 100 ⟨"a", "t", [1]⟩) ⟨"n", [2, 3, 4, 5], 9⟩ =
      (List.replicate 100 ⟨"a", "t", [1]⟩, true) ∧
    addPacket "t" [] ⟨"n", [2, 3, 4, 5], 9⟩ =
      ([] ++ [mkMeasurement "t" ⟨"n", [2, 3, 4, 5], 9⟩], false) :=
  ⟨(addPacket_nonblocking "t" (List.replicate 100 ⟨"a", "t", [1]⟩)
      ⟨"n", [2, 3, 4, 5], 9⟩).2 (by simp [queueCapacity]),
   (addPacket_nonblocking "t" [] ⟨"n", [2, 3, 4, 5], 9⟩).1 (by simp [queueCapacity])⟩

/-- C6 counterexample: the probe does NOT report success exactly when 4 bytes
were read — when the final `port.close()` raises after a full 4-byte read, the
`except: return False` branch reports failure although 4 bytes were read. -/
theorem tryDevice_close_failure_counterexample :
    (tryDevice ⟨true, .ok [1, 2, 3, 4], false⟩).success = false ∧
    ([1, 2, 3, 4] : List Nat).length = 4 := by
  exact ⟨rfl, rfl⟩

/-- C6 amended: the probe reports success exactly when the open succeeded, the
read returned exactly 4 bytes, and the final close succeeded; a close is
attempted exactly when a handle was actually opened (on an open error the
handle does not exist); the probe keeps no state, so a failure disqualifies a
candidate only for the current pass. -/
theorem tryDevice_success_iff (env : ProbeEnv) :
    ((tryDevice env).success = true ↔
      env.openOk = true ∧ env.closeOk = true ∧
        ∃ bs, env.readResult = .ok bs ∧ bs.length = 4) ∧
    (tryDevice env).closeAttempted = env.openOk := by
  obtain ⟨o, r, c⟩ := env
  cases o <;> cases c <;> rcases r with e | bs <;>
    simp [tryDevice, decide_eq_true_iff]

/-- C8: `SerialReader._notify` wraps the listener's `add_data` in a catch-all,
so a listener raising any exception still lets `_notify` return normally, and
one iteration of the read loop completes and continues (`.ok true`) for every
possible listener outcome. -/
theorem serialNotify_swallows_listener_exceptions (e : PyErr) (ls : Bool)
    (data : List Nat) (listener : List Nat → Except PyErr Unit) :
    serialNotify ls (.error e) = .ok () ∧
    readIteration (.ok data) ls listener = .ok true := by
  constructor
  · exact serialNotify_ok ls (.error e)
  · simp only [readIteration]
    rw [serialNotify_ok]

/-- C3: for an extracted frame (the bytes before the delimiter), the
registered listener is notified if and only if the frame COBS-decodes, the
decoded record is exactly 14 bytes with an ASCII (< 0x80) 6-byte name field,
and the little-endian uint32 checksum field equals CRC-32 over the first 10
decoded bytes; in every failure case no notification happens and processing
continues normally (no exception, delimiter consumed). -/
theorem parse_notifies_iff_valid (frame : List Nat) (st : ParserState)
    (hf : 0 ∉ frame) (hb : st.buffer = frame ++ [0]) (hl : st.listener = true) :
    (parseData st).2 = none ∧ (parseData st).1.buffer = [] ∧
    (∀ d, cobsDecode frame = .ok d → d.length = 14 →
      (d.take 6).all (· < 128) = true →
      leUint32 (d.drop 10) = crc32 (d.take 10) →
      (parseData st).1.notified =
        st.notified ++
          [⟨asciiOfBytes (d.take 6), (d.drop 6).take 4, leUint32 (d.drop 10)⟩]) ∧
    ((¬ ∃ d, cobsDecode frame = .ok d ∧ d.length = 14 ∧
        (d.take 6).all (· < 128) = true ∧
        leUint32 (d.drop 10) = crc32 (d.take 10)) →
      (parseData st).1.notified = st.notified) := by
  rw [parseData_eq frame st hf hb]
  refine ⟨rfl, processFrame_buffer st frame [], ?_, ?_⟩
  · intro d hc hlen hascii hcrc
    have hu : unpackData d =
        .ok ⟨asciiOfBytes (d.take 6), (d.drop 6).take 4, leUint32 (d.drop 10)⟩ := by
      unfold unpackData
      rw [if_pos hlen, if_pos hascii]
    have hcv : checkCrc d
        ⟨asciiOfBytes (d.take 6), (d.drop 6).take 4, leUint32 (d.drop 10)⟩ = true := by
      unfold checkCrc
      simpa using hcrc
    simp [processFrame, hc, hu, hcv, notifyPacket, hl]
  · intro hne
    cases hc : cobsDecode frame with
    | error e => simp [processFrame, hc]
    | ok d =>
      cases hu : unpackData d with
      | error e => simp [processFrame, hc, hu]
      | ok p =>
        obtain ⟨hlen, hascii, hp⟩ := unpackData_ok_elim d p hu
        by_cases hcv : checkCrc d p = true
        · exfalso
          apply hne
          refine ⟨d, hc, hlen, hascii, ?_⟩
          simp only [checkCrc, beq_iff_eq] at hcv
          rw [hp] at hcv
          exact hcv
        · simp [processFrame, hc, hu, hcv]

/-- Witness for C3 at a concrete valid frame: the decoder notifies the
listener with exactly the decoded record's packet. -/
theorem parse_notifies_iff_valid_witness :
    (parseData ⟨goodFrame1 ++ [0], [], true⟩).1.notified =
      [] ++ [⟨asciiOfBytes (goodRecord1.take 6), (goodRecord1.drop 6).take 4,
          leUint32 (goodRecord1.drop 10)⟩] :=
  (parse_notifies_iff_valid goodFrame1 ⟨goodFrame1 ++ [0], [], true⟩
      (by decide) rfl rfl).2.2.1 goodRecord1 rfl (by decide) (by decide) (by decide)

/-- C7 counterexample: a valid record whose name is null-padded (`abc` plus
three 0x00 padding bytes) is delivered with name `"abc\x00\x00\x00"` — the
raw 6 bytes ASCII-decoded, NOT the unpadded identifier `"abc"`:
`name.decode("ASCII")` performs no stripping. -/
theorem padded_name_counterexample :
    (addData initState (paddedFrame ++ [0])).1.notified =
      [⟨String.mk ['a', 'b', 'c', Char.ofNat 0, Char.ofNat 0, Char.ofNat 0],
          [1, 2, 3, 4], 1713778067⟩] ∧
    String.mk ['a', 'b', 'c', Char.ofNat 0, Char.ofNat 0, Char.ofNat 0] ≠ "abc" := by
  refine ⟨by decide, by decide⟩

/-- C7 amended: the name delivered in the emitted packet is the record's 6
name bytes interpreted as ASCII text WITH any trailing padding bytes kept
(no stripping of the null padding occurs). -/
theorem unpack_name_keeps_padding (d : List Nat) (p : Packet)
    (h : unpackData d = .ok p) : p.name = asciiOfBytes (d.take 6) := by
  obtain ⟨-, -, hp⟩ := unpackData_ok_elim d p h
  rw [hp]

/-- Witness for C7's amended theorem at the padded-name record. -/
theorem unpack_name_keeps_padding_witness :
    (⟨asciiOfBytes (paddedRecord.take 6), (paddedRecord.drop 6).take 4,
        leUint32 (paddedRecord.drop 10)⟩ : Packet).name =
      asciiOfBytes (paddedRecord.take 6) :=
  unpack_name_keeps_padding paddedRecord _ rfl

/-- C10: a 14-byte decoded record whose name field holds a byte ≥ 0x80 fails
structural decoding (`UnicodeDecodeError` from `name.decode("ASCII")`, caught
in `_parse_data`), so the frame is dropped silently: no notification, normal
return, delimiter consumed. -/
theorem badAscii_frame_dropped (d frame : List Nat) (st : ParserState)
    (hlen : d.length = 14) (hbad : ∃ b ∈ d.take 6, 128 ≤ b)
    (hc : cobsDecode frame = .ok d) (hf : 0 ∉ frame)
    (hst : st.buffer = frame ++ [0]) :
    unpackData d = .error .unicodeDecodeError ∧
    parseData st = (⟨[], st.notified, st.listener⟩, none) := by
  have hall : ¬ (d.take 6).all (· < 128) = true := by
    intro hall
    obtain ⟨b, hbmem, hbge⟩ := hbad
    have := of_decide_eq_true (List.all_eq_true.mp hall b hbmem)
    omega
  have hu : unpackData d = .error .unicodeDecodeError := by
    unfold unpackData
    rw [if_pos hlen, if_neg hall]
  refine ⟨hu, ?_⟩
  rw [parseData_eq frame st hf hst]
  simp [processFrame, hc, hu]

/-- Witness for C10 at a concrete frame whose record has first name byte
0xC8. -/
theorem badAscii_frame_dropped_witness :
    unpackData badAsciiRecord = .error .unicodeDecodeError ∧
    parseData ⟨badAsciiFrame ++ [0], [], true⟩ = (⟨[], [], true⟩, none) :=
  badAscii_frame_dropped badAsciiRecord badAsciiFrame
    ⟨badAsciiFrame ++ [0], [], true⟩ (by decide) (by decide) rfl (by decide) rfl

/-- Characterization of one write-loop iteration when the store accepts
writes and the batch was below 100 beforehand. -/
theorem writeStep_true_eq {α : Type} (st : WriterState α) (item : α)
    (h : st.pending.length < 100) :
    writeStep true st item =
      if st.pending.length + 1 = 100 then
        ⟨[], st.writes ++ [st.pending ++ [item]], st.overflows⟩
      else ⟨st.pending ++ [item], st.writes, st.overflows⟩ := by
  simp only [writeStep, List.length_append, List.length_cons, List.length_nil,
    ge_iff_le, eq_self_iff_true, and_true]
  split_ifs <;> first | rfl | omega

/-- Characterization of one write-loop iteration when every store write
fails: the batch is retained, except that past 500 items it is discarded and
the overflow counted. -/
theorem writeStep_false_eq {α : Type} (st : WriterState α) (item : α) :
    writeStep false st item =
      if (st.pending ++ [item]).length > 500 then ⟨[], st.writes, st.overflows + 1⟩
      else ⟨st.pending ++ [item], st.writes, st.overflows⟩ := by
  simp only [writeStep, Bool.false_eq_true, and_false, if_false]

/-- Invariant run of the write loop with an always-succeeding store: starting
below 100 pending, every issued write holds items already written or exactly
100 items, and the counts follow division/remainder by 100. -/
theorem runWriter_true_aux {α : Type} :
    ∀ (items : List α) (st : WriterState α), st.pending.length < 100 →
      (items.foldl (writeStep true) st).pending.length =
          (st.pending.length + items.length) % 100 ∧
      (items.foldl (writeStep true) st).writes.length =
          st.writes.length + (st.pending.length + items.length) / 100 ∧
      (∀ w ∈ (items.foldl (writeStep true) st).writes,
        w ∈ st.writes ∨ w.length = 100) ∧
      (items.foldl (writeStep true) st).overflows = st.overflows := by
  intro items
  induction items with
  | nil =>
    intro st h
    refine ⟨?_, ?_, fun w hw => Or.inl hw, rfl⟩
    · simp only [List.foldl_nil, List.length_nil, Nat.add_zero]
      omega
    · simp only [List.foldl_nil, List.length_nil, Nat.add_zero]
      omega
  | cons item rest ih =>
    intro st h
    rw [List.foldl_cons, writeStep_true_eq st item h]
    by_cases h100 : st.pending.length + 1 = 100
    · rw [if_pos h100]
      obtain ⟨h1, h2, h3, h4⟩ :=
        ih ⟨[], st.writes ++ [st.pending ++ [item]], st.overflows⟩ (by simp)
      refine ⟨?_, ?_, ?_, ?_⟩
      · rw [h1]
        simp only [List.length_nil, List.length_cons]
        omega
      · rw [h2]
        simp only [List.length_append, List.length_cons, List.length_nil]
        omega
      · intro w hw
        rcases h3 w hw with hmem | hlen
        · rcases List.mem_append.mp hmem with hmem2 | hmem2
          · exact Or.inl hmem2
          · right
            rw [List.mem_singleton.mp hmem2]
            simp only [List.length_append, List.length_cons, List.length_nil]
            omega
        · exact Or.inr hlen
      · exact h4
    · rw [if_neg h100]
      obtain ⟨h1, h2, h3, h4⟩ :=
        ih ⟨st.pending ++ [item], st.writes, st.overflows⟩
          (by simp only [List.length_append, List.length_cons, List.length_nil]; omega)
      refine ⟨?_, ?_, fun w hw => h3 w hw, h4⟩
      · rw [h1]
        simp only [List.length_append, List.length_cons, List.length_nil]
        omega
      · rw [h2]
        simp only [List.length_append, List.length_cons, List.length_nil]
        omega

/-- Run of the write loop with an always-failing store: once the 501st item
of the run arrives (counting from the current batch), the batch is discarded
whole, one overflow is reported, and no write was issued. -/
theorem runWriter_false_aux {α : Type} :
    ∀ (items : List α) (st : WriterState α),
      st.pending.length + items.length = 501 → st.pending.length ≤ 500 →
      items.foldl (writeStep false) st = ⟨[], st.writes, st.overflows + 1⟩ := by
  intro items
  induction items with
  | nil =>
    intro st h1 h2
    exfalso
    simp only [List.length_nil, Nat.add_zero] at h1
    omega
  | cons item rest ih =>
    intro st h1 h2
    rw [List.foldl_cons, writeStep_false_eq st item]
    simp only [List.length_cons] at h1
    by_cases hbig : (st.pending ++ [item]).length > 500
    · rw [if_pos hbig]
      simp only [List.length_append, List.length_cons, List.length_nil] at hbig
      have hrest : rest = [] := by
        apply List.length_eq_zero.mp
        omega
      rw [hrest, List.foldl_nil]
    · rw [if_neg hbig]
      simp only [List.length_append, List.length_cons, List.length_nil] at hbig
      exact ih ⟨st.pending ++ [item], st.writes, st.overflows⟩
        (by simp only [List.length_append, List.length_cons, List.length_nil]; omega)
        (by simp only [List.length_append, List.length_cons, List.length_nil]; omega)

/-- C4: with an always-succeeding store, every bulk write the loop issues
holds exactly 100 items, the number of writes and the pending remainder
follow division by 100 (in particular 250 arrivals produce exactly 2 writes
of 100 with 50 pending), and no overflow is ever reported; with an
always-failing store, after the 501st arrival the pending batch is discarded
entirely, the overflow is reported, and no write was issued. -/
theorem writer_batching {α : Type} :
    (∀ items : List α,
      (∀ w ∈ (runWriter true items).writes, w.length = 100) ∧
      (runWriter true items).writes.length = items.length / 100 ∧
      (runWriter true items).pending.length = items.length % 100 ∧
      (runWriter true items).overflows = 0) ∧
    ((runWriter true (List.range 250)).writes.length = 2 ∧
      (runWriter true (List.range 250)).pending.length = 50) ∧
    (∀ items : List α, items.length = 501 →
      runWriter false items = ⟨[], [], 1⟩) := by
  refine ⟨?_, ?_, ?_⟩
  · intro items
    obtain ⟨h1, h2, h3, h4⟩ := runWriter_true_aux items ⟨[], [], 0⟩ (by simp)
    refine ⟨?_, ?_, ?_, ?_⟩
    · intro w hw
      rcases h3 w hw with habs | hlen
      · exact absurd habs (List.not_mem_nil w)
      · exact hlen
    · simpa [runWriter] using h2
    · simpa [runWriter] using h1
    · simpa [runWriter] using h4
  · obtain ⟨h1, h2, h3, h4⟩ := runWriter_true_aux (List.range 250) ⟨[], [], 0⟩ (by simp)
    constructor
    · simpa [runWriter] using h2
    · simpa [runWriter] using h1
  · intro items hlen
    have h := runWriter_false_aux items ⟨[], [], 0⟩ (by simpa using hlen) (by simp)
    simpa [runWriter] using h

/-- Witness for C4: 501 arrivals under an always-failing store clear the
batch and report one overflow; 250 arrivals under a succeeding store issue
exactly 2 writes. -/
theorem writer_batching_witness :
    runWriter false (List.replicate 501 (0 : Nat)) = ⟨[], [], 1⟩ ∧
    (runWriter true (List.range 250)).writes.length = 2 :=
  ⟨(@writer_batching Nat).2.2 (List.replicate 501 0) (by simp),
   (@writer_batching Nat).2.1.1⟩

end Receiver
